import Mathlib

/-!
Shallow embedding of `src/ant_tracker/tracker/segmenter.py` (AntTracker).

Conventions:
* Grayscale images and masks are flattened pixel lists (`List ℚ`, `List Bool`,
  `List Nat`); only counts and pointwise operations matter to the claims.
* Calls into external libraries (OpenCV, scikit-image, scipy) are taken as
  function parameters of the embedded definitions, placed exactly where the
  source calls them; the repository's own control flow, arithmetic and
  filtering are embedded concretely.
* Python floats are modelled as rationals; `np.pi` is the exact rational value
  of the IEEE-754 double `3.141592653589793`.
* Code of this repository that is not under `src/` (`blob.py`, `common.py`,
  `parameters.py`) is modelled from the spec, and marked as such.
-/

namespace AntTracker

/-- Modelled from the spec: `SegmenterParameters` lives in
`ant_tracker/tracker/parameters.py`, which is not under `src/`.  Spec §3 lists
the fields: shared `movement_detection_threshold`, `discard_percentage`,
`minimum_ant_radius`, `movement_detection_history`, `approx_tolerance`;
LogW-specific `gaussian_sigma`; DoH-specific `doh_min_sigma`, `doh_max_sigma`,
`doh_num_sigma`.  It is an immutable container supporting iteration over
(name, value) pairs. -/
structure SegmenterParameters where
  movement_detection_threshold : ℚ
  discard_percentage : ℚ
  minimum_ant_radius : ℚ
  movement_detection_history : Nat
  approx_tolerance : ℚ
  gaussian_sigma : ℚ
  doh_min_sigma : ℚ
  doh_max_sigma : ℚ
  doh_num_sigma : Nat
  deriving Repr, DecidableEq

/-- The IEEE-754 double closest to π, i.e. the exact value of `np.pi`. -/
def npPi : ℚ := 884279719003555 / 281474976710656

/-- `minimum_ant_area(min_radius) = np.pi * min_radius ** 2`
(segmenter.py line 190). -/
def minimum_ant_area (min_radius : ℚ) : ℚ := npPi * min_radius ^ 2

/-- `maximum_clear_radius(radius) = radius * 3` (segmenter.py line 193). -/
def maximum_clear_radius (radius : ℚ) : ℚ := radius * 3

/-- Number of `true` pixels of a boolean mask (`np.count_nonzero` on a bool
array). -/
def countTrue (mask : List Bool) : Nat := mask.count true

/-- `np.count_nonzero` on an integer-valued image. -/
def countNonzero (img : List Nat) : Nat := (img.filter (fun v => v ≠ 0)).length

/-- Insertion into a sorted list, for the pixelwise median. -/
def insertSorted (x : ℚ) : List ℚ → List ℚ
  | [] => [x]
  | y :: ys => if x ≤ y then x :: y :: ys else y :: insertSorted x ys

/-- Insertion sort on rationals, for the pixelwise median. -/
def sortRat : List ℚ → List ℚ
  | [] => []
  | x :: xs => insertSorted x (sortRat xs)

/-- Median of a list of values, `np.median` style: middle element of the
sorted list for odd length, average of the two middle elements for even
length. -/
def medianRat (xs : List ℚ) : ℚ :=
  let s := sortRat xs
  let n := s.length
  if n % 2 = 1 then s.getD (n / 2) 0
  else (s.getD (n / 2 - 1) 0 + s.getD (n / 2) 0) / 2

/-- Pixelwise median of a stack of frames, `np.median(last_frames, axis=0)`
(segmenter.py line 30).  Pixel `i` of the result is the median of the pixels
`i` of all frames. -/
def medianImage (frames : List (List ℚ)) (size : Nat) : List ℚ :=
  (List.range size).map (fun i => medianRat (frames.map (fun f => f.getD i 0)))

/-- The movement-candidate mask of `_get_mask` as it stands at the guard point
(segmenter.py lines 27-34): background is all-zero when no history is given,
otherwise the pixelwise median of `last_frames`; `movement = |frame −
background|`; mask is `movement > movement_detection_threshold`. -/
def candidateMask (frame : List ℚ) (last_frames : List (List ℚ))
    (params : SegmenterParameters) : List Bool :=
  let background :=
    if last_frames.length = 0 then List.replicate frame.length (0 : ℚ)
    else medianImage last_frames frame.length
  let movement := (frame.zip background).map (fun p => |p.1 - p.2|)
  movement.map (fun v => decide (v > params.movement_detection_threshold))

/-- `_get_mask` (segmenter.py lines 26-46), the median-background masking
policy.  The three trailing morphology steps (`cv.morphologyEx` close/open and
`cv.dilate`, external OpenCV calls) are taken as parameters and applied with
the radii the source passes (`minimum_ant_radius`, `0.8 ×`, and
`minimum_ant_radius` again). -/
def get_mask (morphClose morphOpen dilate : List Bool → ℚ → List Bool)
    (frame : List ℚ) (last_frames : List (List ℚ))
    (params : SegmenterParameters) : List Bool :=
  let mask := candidateMask frame last_frames params
  if countTrue mask > (mask.length : ℚ) * params.discard_percentage then
    List.replicate mask.length false
  else
    let radius := params.minimum_ant_radius
    dilate (morphOpen (morphClose mask radius) (radius * 0.8)) radius

/-- The MOG2 movement-candidate mask as it stands at the guard point
(segmenter.py lines 53-60): raw subtractor output, bright-"lamina" threshold
and subtraction, then the close→open morphology. -/
def mog2Candidate {S : Type}
    (subtApply : S → List ℚ → S × List Nat)
    (cvThreshold : List ℚ → ℚ → ℚ → List Nat)
    (cvSubtract : List Nat → List Nat → List Nat)
    (morphClose morphOpen : List Nat → ℚ → List Nat)
    (subt : S) (frame : List ℚ) (params : SegmenterParameters) : List Nat :=
  let mask0 := (subtApply subt frame).2
  let lamina := cvThreshold
    ((frame.zip mask0).map (fun p => if p.2 ≠ 0 then p.1 else 0)) 150 255
  let mask1 := cvSubtract mask0 lamina
  let r := params.minimum_ant_radius
  morphOpen (morphClose mask1 r) (r * 0.8)

/-- `_get_mask_mog2` (segmenter.py lines 52-73), the adaptive MOG2 masking
policy.  The external OpenCV pieces — `subt.apply`, `cv.threshold`,
`cv.subtract`, the two `cv.morphologyEx` steps, `cv.findContours`,
`cv.contourArea`, `cv.approxPolyDP` and `cv.fillPoly` — are parameters, used
exactly where the source calls them.  `S` is the (mutable) subtractor state,
`C` the contour type. -/
def get_mask_mog2 {S C : Type}
    (subtApply : S → List ℚ → S × List Nat)
    (cvThreshold : List ℚ → ℚ → ℚ → List Nat)
    (cvSubtract : List Nat → List Nat → List Nat)
    (morphClose morphOpen : List Nat → ℚ → List Nat)
    (findContours : List Nat → List C)
    (contourArea : C → ℚ)
    (approxPolyDP : C → ℚ → Bool → C)
    (fillPoly : Nat → List C → ℚ → List Nat)
    (subt : S) (frame : List ℚ) (params : SegmenterParameters) : List Bool :=
  let mask2 := mog2Candidate subtApply cvThreshold cvSubtract morphClose
    morphOpen subt frame params
  if countNonzero mask2 > (mask2.length : ℚ) * params.discard_percentage then
    List.replicate mask2.length false
  else
    let min_area := minimum_ant_area params.minimum_ant_radius
    let contours := (findContours mask2).filter
      (fun cont => decide (contourArea cont > min_area))
    let contours := contours.map (fun cont => approxPolyDP cont 0.01 true)
    (fillPoly mask2.length contours 255).map (fun v => decide (v ≠ 0))

/-- Python `int()` on a float: truncation toward zero. -/
def ratToInt (q : ℚ) : ℤ := q.num.tdiv (q.den : ℤ)

/-- Squared euclidean distance between two points, used to decide
`cKDTree.query_ball_point` membership without square roots. -/
def sqDist (p q : ℚ × ℚ) : ℚ := (p.1 - q.1) ^ 2 + (p.2 - q.2) ^ 2

/-- `cKDTree(points).query_ball_point(c, r)` (external scipy call, segmenter.py
line 108): the indices of all points within euclidean distance `r` of `c`. -/
def queryBallPoint (points : List (ℚ × ℚ)) (c : ℚ × ℚ) (r : ℚ) : List Nat :=
  (List.range points.length).filter
    (fun j => decide (sqDist (points.getD j (0, 0)) c ≤ r ^ 2))

/-- The `close_idx` computation of `_get_blobs_logw` (segmenter.py lines
102-112): for each previous blob except the last, collect all blob indices
within `maximum_clear_radius` of it (removing `i` itself when it was the only
hit), then `np.unique` the collected indices. -/
def closeIdxOf (points : List (ℚ × ℚ)) (radii : List ℚ) : List Nat :=
  let idx := (List.range (points.length - 1)).flatMap (fun i =>
    let new := queryBallPoint points (points.getD i (0, 0))
      (maximum_clear_radius (radii.getD i 0))
    if new.length = 1 then new.erase i else new)
  (List.range points.length).filter (fun j => idx.contains j)

/-- Pointwise conjunction of two masks (`a * b` on boolean arrays). -/
def andMask (a b : List Bool) : List Bool := List.zipWith (· && ·) a b

/-- `skimage.measure.regionprops(labels)`: one region per distinct nonzero
label value of the label image, in ascending label order. -/
def regionLabelsOf (labels : List Nat) : List Nat :=
  (List.range (labels.foldl max 0 + 1)).filter
    (fun l => decide (l ≠ 0) && labels.contains l)

section Extractor

variable {Blob C : Type}

/-- The shared regionprops loop of both extractors (segmenter.py lines
130-137, 144-148 and 179-183): for each region of the label image, skip it if
`p.area < minimum_ant_area` (the area of a label is its pixel count), else
append `Blob(imshape=frame.shape, mask=(labels == label),
approx_tolerance=...)`.  `mkBlob` is the external `Blob` constructor. -/
def blobsFromLabels (mkBlob : Nat → List Bool → ℚ → Blob) (size : Nat)
    (tol minArea : ℚ) (labels : List Nat) : List Blob :=
  (regionLabelsOf labels).filterMap (fun l =>
    if ((labels.count l : ℚ)) < minArea then none
    else some (mkBlob size (labels.map (fun v => decide (v = l))) tol))

variable (mkBlob : Nat → List Bool → ℚ → Blob)
variable (center_x center_y blobRadius : Blob → ℚ)
variable (imgAsUint : List ℚ → List ℚ)
variable (cvGaussianBlur : List ℚ → ℤ → ℚ → List ℚ)
variable (cvFilter2D : List ℚ → List ℚ → List ℚ)
variable (isodata : List ℚ → Option ℚ)
variable (watershed : List ℚ → List Nat → List Bool → List Nat)
variable (ccLabel : List Bool → List Nat)
variable (diskMask : ℚ × ℚ → ℤ → Nat → List Bool)
variable (blobDoh : List ℚ → ℚ → ℚ → Nat → List (Nat × Nat))
variable (skGaussian : List ℚ → ℚ → List ℚ)
variable (skLaplace : List ℚ → List Bool → List ℚ)

/-- The `intersection_zone` accumulation (segmenter.py lines 116-119): or-in a
disk of radius `int(maximum_clear_radius(prev_blobs[idx].radius))` centered at
`points[idx]` for each close index.  `diskMask` is `skimage.draw.disk`. -/
def buildZone (size : Nat) (close_idx : List Nat) (points : List (ℚ × ℚ))
    (radii : List ℚ) : List Bool :=
  close_idx.foldl (fun z idx =>
    List.zipWith (· || ·) z
      (diskMask (points.getD idx (0, 0))
        (ratToInt (maximum_clear_radius (radii.getD idx 0))) size))
    (List.replicate size false)

/-- The `close_markers_mask` accumulation (segmenter.py lines 120-124): paint
a disk of radius `int(minimum_ant_radius * 1.5)` with value `idx + 1` for each
close index; later disks overwrite earlier pixels. -/
def buildMarkers (size : Nat) (close_idx : List Nat) (points : List (ℚ × ℚ))
    (min_radius : ℚ) : List Nat :=
  close_idx.foldl (fun m idx =>
    List.zipWith (fun v d => if d then idx + 1 else v) m
      (diskMask (points.getD idx (0, 0)) (ratToInt (min_radius * 1.5)) size))
    (List.replicate size 0)

/-- The masked Laplacian-of-Gaussian response of `_get_blobs_logw`
(segmenter.py lines 84-87): Gaussian blur with kernel size
`int(4.0 * sigma + 0.5) * 2 + 1`, `img_as_uint`, the `[0.125, -1, 0.125]`
convolution, multiplied by the movement mask. -/
def logwLogImage (frame : List ℚ) (movement_mask : List Bool)
    (params : SegmenterParameters) : List ℚ :=
  let ksize : ℤ := ratToInt (4 * params.gaussian_sigma + 0.5) * 2 + 1
  let gauss := imgAsUint (cvGaussianBlur frame ksize params.gaussian_sigma)
  ((cvFilter2D gauss [0.125, -1, 0.125]).zip movement_mask).map
    (fun p => if p.2 then p.1 else 0)

/-- `_get_blobs_logw` (segmenter.py lines 75-149).  External calls
(`cv.GaussianBlur`, `img_as_uint`, `cv.filter2D`,
`skfilters.threshold_isodata`, `skimage.draw.disk`, `skseg.watershed`,
`skmeasure.label`) are parameters; `isodata` returning `none` models the
`IndexError` the source catches (lines 92-96), returning zero blobs. -/
def getBlobsLogw (frame : List ℚ) (movement_mask : List Bool)
    (params : SegmenterParameters) (prev_blobs : List Blob) : List Blob :=
  if !(movement_mask.any (fun b => b)) then []
  else
    let log := logwLogImage imgAsUint cvGaussianBlur cvFilter2D frame
      movement_mask params
    if !(log.any (fun v => decide (v ≠ 0))) then []
    else
      match isodata log with
      | none => []
      | some t =>
        let intensity_mask := log.map (fun v => decide (v ≤ t))
        let size := frame.length
        let minArea := minimum_ant_area params.minimum_ant_radius
        let points := prev_blobs.map (fun b => (center_y b, center_x b))
        let radii := prev_blobs.map blobRadius
        let zone0 := List.replicate size false
        let zoneAndBlobs :=
          if prev_blobs.length > 1 then
            let close_idx := closeIdxOf points radii
            if close_idx.length > 0 then
              let zone := buildZone diskMask size close_idx points radii
              let markers := buildMarkers diskMask size close_idx points
                params.minimum_ant_radius
              let wlabels := watershed (List.replicate size 0) markers
                (andMask intensity_mask zone)
              (zone, blobsFromLabels mkBlob size params.approx_tolerance
                minArea wlabels)
            else (zone0, ([] : List Blob))
          else (zone0, ([] : List Blob))
        let mask_not_intersecting :=
          List.zipWith (fun a z => a && !z) intensity_mask zoneAndBlobs.1
        let labels := ccLabel mask_not_intersecting
        zoneAndBlobs.2 ++
          blobsFromLabels mkBlob size params.approx_tolerance minArea labels

/-- `_get_blobs_in_frame_with_steps_doh` (segmenter.py lines 151-185); `width`
is the row length used to flatten the 2D marker indexing of the source.  The
`threshold_isodata` call on line 174 is *not* wrapped in try/except: `isodata`
returning `none` makes the whole call fail (`none` result), modelling the
propagated exception. -/
def getBlobsDohSteps (width : Nat) (frame : List ℚ) (movement_mask : List Bool)
    (params : SegmenterParameters) :
    Option (List Blob × List ℚ × List ℚ × List Nat × List ℚ) :=
  if !(movement_mask.any (fun b => b)) then
    some ([], List.replicate frame.length 0, List.replicate frame.length 0,
          List.replicate frame.length 0, List.replicate frame.length 0)
  else
    let masked_frame := (frame.zip movement_mask).map
      (fun p => if p.2 then p.1 else 255)
    let yxs := blobDoh masked_frame params.doh_min_sigma params.doh_max_sigma
      params.doh_num_sigma
    let marker_mask := yxs.enum.foldl (fun m p =>
      if movement_mask.getD (p.2.1 * width + p.2.2) false then
        m.set (p.2.1 * width + p.2.2) (p.1 + 1)
      else m) (List.replicate frame.length 0)
    let gauss := skGaussian frame params.gaussian_sigma
    let log := skLaplace gauss movement_mask
    match isodata log with
    | none => none
    | some t =>
      let labels := watershed log marker_mask (log.map (fun v => decide (v < t)))
      let blobs := blobsFromLabels mkBlob frame.length params.approx_tolerance
        (minimum_ant_area params.minimum_ant_radius) labels
      some (blobs, gauss, log, labels, masked_frame)

/-- `_get_blobs_doh` (segmenter.py lines 187-188): first component of the
steps function. -/
def getBlobsDoh (width : Nat) (frame : List ℚ) (movement_mask : List Bool)
    (params : SegmenterParameters) : Option (List Blob) :=
  (getBlobsDohSteps mkBlob isodata watershed blobDoh skGaussian skLaplace
    width frame movement_mask params).map (fun r => r.1)

end Extractor

/-- The errors `Segmenter` operations raise (`ValueError` either with the
no-video message of segmenter.py line 249, the invalid-frame message of line
251, or the ambiguous-history message of lines 257-260, and the `ValueError`
of `max()` on an empty collection for `segment_rolling_continue`). -/
inductive SegError where
  | noVideo
  | invalidFrame (n : ℤ)
  | ambiguousHistory (missing : ℤ)
  | emptyTableMax
  deriving Repr, DecidableEq

/-- `Segmenter` state (segmenter.py lines 198-206): the frame→blobs table (a
dict, modelled as an insertion-ordered association list), the optional video
(a list of color frames `CF`), the parameter set, `video_length` and
`video_shape`.  `B` is the blob type. -/
structure Segmenter (CF B : Type) where
  frames_with_blobs : List (Nat × List B)
  video : Option (List CF)
  params : SegmenterParameters
  video_length : Nat
  video_shape : Nat × Nat
  deriving DecidableEq

section Seg

variable {CF F M B S : Type} [Inhabited CF]
variable (rgb2gray : CF → F)
variable (subtApply : S → F → S)
variable (createSubtractor : S)
variable (getMask : S → F → S × M)
variable (getBlobs : F → M → List B → List B)

/-- The generator loop of `segment_rolling_from` (segmenter.py lines 265-274),
run for at most `steps` pulls of the generator (a partial iteration stops
early; each pull yields one `(frame_n, blobs)` pair).  An already-stored frame
is yielded from the table without touching `prev`; an unstored frame is
masked, extracted with the current `prev`, appended to the table, yielded, and
becomes the new `prev`.  Returns the yielded pairs and the final table. -/
def segLoop : Nat → List CF → Nat → List (Nat × List B) → S → List B →
    List (Nat × List B) × List (Nat × List B)
  | 0, _, _, tbl, _, _ => ([], tbl)
  | _ + 1, [], _, tbl, _, _ => ([], tbl)
  | steps + 1, f :: rest, k, tbl, st, prev =>
    match tbl.lookup k with
    | some bs =>
      let r := segLoop steps rest (k + 1) tbl st prev
      ((k, bs) :: r.1, r.2)
    | none =>
      let g := rgb2gray f
      let sm := getMask st g
      let bs := getBlobs g sm.2 prev
      let r := segLoop steps rest (k + 1) (tbl ++ [(k, bs)]) sm.1 bs
      ((k, bs) :: r.1, r.2)

/-- `Segmenter.segment_rolling_from` (segmenter.py lines 237-274): the
validation prologue (no video, frame out of range, prior-blob resolution), the
fresh-subtractor warm-up over the `min(movement_detection_history,
from_frame)` frames preceding `from_frame`, and the generator loop driven for
`steps` pulls.  Returns the yielded pairs and the updated segmenter, or the
error the source raises. -/
def segment_rolling_from (seg : Segmenter CF B) (from_frame_n : ℤ)
    (prevArg : Option (List B)) (steps : Nat) :
    Except SegError (List (Nat × List B) × Segmenter CF B) :=
  match seg.video with
  | none => .error .noVideo
  | some video =>
    if from_frame_n < 0 ∨ (seg.video_length : ℤ) ≤ from_frame_n then
      .error (.invalidFrame from_frame_n)
    else
      let fn := from_frame_n.toNat
      let prevRes : Except SegError (List B) :=
        if fn = 0 then .ok []
        else if !seg.frames_with_blobs.isEmpty &&
            (seg.frames_with_blobs.lookup (fn - 1)).isSome then
          .ok ((seg.frames_with_blobs.lookup (fn - 1)).getD [])
        else
          match prevArg with
          | none => .error (.ambiguousHistory (from_frame_n - 1))
          | some p => .ok p
      match prevRes with
      | .error e => .error e
      | .ok prev =>
        let n := min seg.params.movement_detection_history fn
        let warm := (List.range' (fn - n) n).foldl
          (fun s j => subtApply s (rgb2gray (video.getD j default)))
          createSubtractor
        let r := segLoop rgb2gray getMask getBlobs steps (video.drop fn) fn
          seg.frames_with_blobs warm prev
        .ok (r.1, { seg with frames_with_blobs := r.2 })

/-- `max(...)` over the keys of a dict: `none` on an empty dict (Python raises
`ValueError`). -/
def maxKey : List (Nat × List B) → Option Nat
  | [] => none
  | (k, _) :: rest => some (rest.foldl (fun a p => max a p.1) k)

/-- `Segmenter.segment_rolling_continue` (segmenter.py lines 233-235):
`segment_rolling_from(max(frames_with_blobs) + 1)`; `max` of an empty table
raises. -/
def segment_rolling_continue (seg : Segmenter CF B) (steps : Nat) :
    Except SegError (List (Nat × List B) × Segmenter CF B) :=
  match maxKey seg.frames_with_blobs with
  | none => .error .emptyTableMax
  | some m =>
    segment_rolling_from rgb2gray subtApply createSubtractor getMask getBlobs
      seg ((m : ℤ) + 1) none steps

/-- One public segmentation call: `segment_rolling_from` with explicit
arguments, or `segment_rolling_continue`, each iterated for `steps` pulls. -/
inductive SegOp (B : Type) where
  | rollFrom (from_frame : ℤ) (prevArg : Option (List B)) (steps : Nat)
  | rollCont (steps : Nat)

/-- Run one operation against a segmenter; a raising call leaves the segmenter
unchanged and yields nothing. -/
def runOp (seg : Segmenter CF B) : SegOp B → Segmenter CF B × List (Nat × List B)
  | .rollFrom f p s =>
    match segment_rolling_from rgb2gray subtApply createSubtractor getMask
        getBlobs seg f p s with
    | .error _ => (seg, [])
    | .ok r => (r.2, r.1)
  | .rollCont s =>
    match segment_rolling_continue rgb2gray subtApply createSubtractor getMask
        getBlobs seg s with
    | .error _ => (seg, [])
    | .ok r => (r.2, r.1)

/-- Run a sequence of segmentation calls, collecting the yielded pairs of each
run. -/
def runOps : Segmenter CF B → List (SegOp B) →
    Segmenter CF B × List (List (Nat × List B))
  | seg, [] => (seg, [])
  | seg, op :: ops =>
    let r := runOp rgb2gray subtApply createSubtractor getMask getBlobs seg op
    let rr := runOps r.1 ops
    (rr.1, r.2 :: rr.2)

end Seg

/-- Modelled from the spec: `eq_gen_it` lives in ant_tracker/tracker/common.py,
which is not under `src/`.  Spec §8: "`FullySegmented` holds iff the stored
index set equals `{0, …, video_length−1}` exactly ... regardless of order";
modelled as equality of the two index collections as finite sets. -/
def eq_gen_it (keys r : List Nat) : Bool := decide (keys.toFinset = r.toFinset)

/-- `Segmenter.is_finished` (segmenter.py lines 208-212): `False` on an empty
table, else `eq_gen_it(frames_with_blobs.keys(), range(video_length))`. -/
def Segmenter.is_finished {CF B : Type} (seg : Segmenter CF B) : Bool :=
  if seg.frames_with_blobs.isEmpty then false
  else eq_gen_it (seg.frames_with_blobs.map Prod.fst)
    (List.range seg.video_length)

/-- ASCII character of a decimal digit. -/
def digitChar (d : Nat) : Char := Char.ofNat (48 + d)

/-- Python `str(n)` for a nonnegative integer: its decimal digit string. -/
def natRepr (n : Nat) : String :=
  if n = 0 then "0" else String.mk ((Nat.digits 10 n).reverse.map digitChar)

/-- One decimal digit of Python `int(s)` parsing. -/
def parseDigit (c : Char) : Option Nat :=
  if 48 ≤ c.toNat ∧ c.toNat ≤ 57 then some (c.toNat - 48) else none

/-- Digit-by-digit parse of a character list; fails on any non-digit. -/
def parseDigits : List Char → Option (List Nat)
  | [] => some []
  | c :: cs =>
    match parseDigit c, parseDigits cs with
    | some d, some ds => some (d :: ds)
    | _, _ => none

/-- Python `int(s)` on a plain digit string (`FrameNumber(frame)` in
`Segmenter.decode`, segmenter.py line 313): fails on an empty or non-digit
string. -/
def parseNat (s : String) : Option Nat :=
  if s.data.isEmpty then none
  else (parseDigits s.data).map
    (fun ds => ds.foldl (fun a d => 10 * a + d) 0)

/-- Modelled from the spec: the `Blob` collaborator (ant_tracker/tracker/
blob.py, not under `src/`).  Spec §3/§6: an immutable detected-object record
carrying the frame dimensions and exposing `center` (x, y) and `radius`. -/
structure BlobData where
  imshape : Nat × Nat
  center_x : ℚ
  center_y : ℚ
  radius : ℚ
  deriving Repr, DecidableEq

/-- Modelled from the spec: the serialized form of a `Blob` — its geometry
without the frame shape (decode reattaches the shape, spec §6). -/
structure BlobSerial where
  center_x : ℚ
  center_y : ℚ
  radius : ℚ
  deriving Repr, DecidableEq

/-- Modelled from the spec: `Blob.encode()` serializes the geometry. -/
def BlobData.encode (b : BlobData) : BlobSerial :=
  ⟨b.center_x, b.center_y, b.radius⟩

/-- Modelled from the spec: `Blob.decode(data, shape)` rebuilds the blob,
"reattach[ing] Blob geometry using the stored shape" (spec §6). -/
def BlobData.decode (s : BlobSerial) (shape : Nat × Nat) : BlobData :=
  ⟨shape, s.center_x, s.center_y, s.radius⟩

/-- The serialized `Segmenter` record (`Segmenter.Serial`, segmenter.py lines
293-297): string-keyed frame table, parameter name→value pairs,
`video_length`, `video_shape`. -/
structure SegmenterSerial where
  frames_with_blobs : List (String × List BlobSerial)
  parameters : List (String × ℚ)
  video_length : Nat
  video_shape : Nat × Nat

/-- `dict(self.params.items())` (segmenter.py line 303): the parameter
name→value pairs.  Modelled from the spec for the iteration order of the
parameters collaborator (parameters.py is not under `src/`); the integer
`movement_detection_history` is stored as a rational like every other
value. -/
def encodeParams (p : SegmenterParameters) : List (String × ℚ) :=
  [("movement_detection_threshold", p.movement_detection_threshold),
   ("discard_percentage", p.discard_percentage),
   ("minimum_ant_radius", p.minimum_ant_radius),
   ("movement_detection_history", (p.movement_detection_history : ℚ)),
   ("approx_tolerance", p.approx_tolerance),
   ("gaussian_sigma", p.gaussian_sigma),
   ("doh_min_sigma", p.doh_min_sigma),
   ("doh_max_sigma", p.doh_max_sigma),
   ("doh_num_sigma", (p.doh_num_sigma : ℚ))]

/-- `SegmenterParameters(d['parameters'])` (segmenter.py line 316): rebuild the
parameter container from the name→value pairs.  Modelled from the spec
(parameters.py is not under `src/`). -/
def decodeParams (l : List (String × ℚ)) : SegmenterParameters :=
  { movement_detection_threshold :=
      (l.lookup "movement_detection_threshold").getD 0
    discard_percentage := (l.lookup "discard_percentage").getD 0
    minimum_ant_radius := (l.lookup "minimum_ant_radius").getD 0
    movement_detection_history :=
      ((l.lookup "movement_detection_history").getD 0).num.toNat
    approx_tolerance := (l.lookup "approx_tolerance").getD 0
    gaussian_sigma := (l.lookup "gaussian_sigma").getD 0
    doh_min_sigma := (l.lookup "doh_min_sigma").getD 0
    doh_max_sigma := (l.lookup "doh_max_sigma").getD 0
    doh_num_sigma := ((l.lookup "doh_num_sigma").getD 0).num.toNat }

/-- `Segmenter.encode` (segmenter.py lines 299-306): stringify the frame keys,
encode each blob, dump the parameters, keep `video_length` and
`video_shape`. -/
def Segmenter.encode {CF : Type} (seg : Segmenter CF BlobData) :
    SegmenterSerial :=
  { frames_with_blobs := seg.frames_with_blobs.map
      (fun p => (natRepr p.1, p.2.map BlobData.encode))
    parameters := encodeParams seg.params
    video_length := seg.video_length
    video_shape := seg.video_shape }

/-- The frame-table part of `Segmenter.decode`: parse each string key back to
an integer (failing fast on a malformed key) and decode each blob against the
stored shape. -/
def decodeFrames (shape : Nat × Nat) :
    List (String × List BlobSerial) → Option (List (Nat × List BlobData))
  | [] => some []
  | p :: rest =>
    match parseNat p.1, decodeFrames shape rest with
    | some k, some tl =>
      some ((k, p.2.map (fun b => BlobData.decode b shape)) :: tl)
    | _, _ => none

/-- `Segmenter.decode` (segmenter.py lines 308-319): parse each frame key back
to an integer (`FrameNumber(frame)`, failing on a malformed key), decode each
blob against the stored shape, rebuild the parameters; the video stays
unattached. -/
def Segmenter.decode (CF : Type) (d : SegmenterSerial) :
    Option (Segmenter CF BlobData) :=
  (decodeFrames d.video_shape d.frames_with_blobs).map
    (fun tbl =>
      { frames_with_blobs := tbl
        video := none
        params := decodeParams d.parameters
        video_length := d.video_length
        video_shape := d.video_shape })

/-- The window of frames the warm-up loop of `segment_rolling_from` is meant
to feed the fresh subtractor: the `min(movement_detection_history, from_frame)`
frames immediately preceding `from_frame`, in ascending order. -/
def warmupWindow {CF : Type} (video : List CF) (hist fn : Nat) : List CF :=
  (video.drop (fn - min hist fn)).take (min hist fn)

/-! Concrete instantiations used by witnesses and counterexamples. -/

/-- A small concrete parameter set: threshold 5, discard 1/2, radius 1,
history 2. -/
def witnessParams : SegmenterParameters := ⟨5, mkRat 1 2, 1, 2, 1, 1, 1, 1, 1⟩

/-- Concrete grayscale conversion: color frames are already numbers. -/
def grayId (c : Nat) : Nat := c

/-- Concrete warm-up subtractor state: the list of frames fed so far. -/
def subtRec (s : List Nat) (f : Nat) : List Nat := s ++ [f]

/-- Concrete in-loop masker: state unchanged, trivial mask. -/
def maskF (s : List Nat) (_f : Nat) : List Nat × Unit := (s, ())

/-- Concrete extractor: one blob recording the frame and the flattened
previous blobs, so the `prev` argument is recoverable from the output. -/
def blobsF (g : Nat) (_m : Unit) (prev : List (List Nat)) : List (List Nat) :=
  [g :: prev.flatten]

/-- A fresh segmenter over the 3-frame video `[10, 20, 30]`. -/
def segFresh3 : Segmenter Nat (List Nat) :=
  { frames_with_blobs := [], video := some [10, 20, 30],
    params := witnessParams, video_length := 3, video_shape := (1, 3) }

/-- A segmenter over `[10, 20, 30]` whose table already stores frame 1. -/
def segC2 : Segmenter Nat (List Nat) :=
  { frames_with_blobs := [(1, [[99]])], video := some [10, 20, 30],
    params := witnessParams, video_length := 3, video_shape := (1, 3) }

/-- A segmenter with an empty table and `video_length = 0` (as produced by
decoding a serialized record with an empty table and length 0). -/
def segEmpty0 : Segmenter Nat Nat :=
  { frames_with_blobs := [], video := none, params := witnessParams,
    video_length := 0, video_shape := (0, 0) }

/-- A segmenter with a non-trivial table: two frames, each with at least one
blob. -/
def segSer : Segmenter Nat BlobData :=
  { frames_with_blobs :=
      [(0, [⟨(4, 5), mkRat 1 2, mkRat 3 2, 2⟩]),
       (1, [⟨(4, 5), mkRat 5 2, mkRat 7 2, 3⟩, ⟨(4, 5), 1, 1, 1⟩])],
    video := none, params := witnessParams, video_length := 2,
    video_shape := (4, 5) }

/-! ## Theorems -/

/-- C10: on a `Segmenter` whose frame-to-blobs table is empty,
`segment_rolling_continue` fails (Python: `max()` of the empty key collection
raises `ValueError`) instead of behaving like segmenting from frame 0. -/
theorem claim_C10_continue_empty_table {CF F M B S : Type} [Inhabited CF]
    (rgb2gray : CF → F) (subtApply : S → F → S) (createSubtractor : S)
    (getMask : S → F → S × M) (getBlobs : F → M → List B → List B)
    (seg : Segmenter CF B) (steps : Nat)
    (h : seg.frames_with_blobs = []) :
    segment_rolling_continue rgb2gray subtApply createSubtractor getMask
      getBlobs seg steps = .error .emptyTableMax := by
  unfold segment_rolling_continue
  rw [h]
  rfl

/-- Witness for C10 at a concrete input: a fresh segmenter over a 3-frame
video. -/
theorem claim_C10_witness :
    segment_rolling_continue grayId subtRec [] maskF blobsF segFresh3 5 =
      .error .emptyTableMax :=
  claim_C10_continue_empty_table grayId subtRec [] maskF blobsF segFresh3 5
    rfl

/-- C3 (amended): `is_finished` is true iff the table is *nonempty* and the
stored frame-index set equals `{0, …, video_length−1}`; in particular it is
insensitive to insertion order.  (The original claim omits the nonemptiness
condition, which matters only for `video_length = 0`.) -/
theorem claim_C3_is_finished_iff {CF B : Type} (seg : Segmenter CF B) :
    seg.is_finished = true ↔
      seg.frames_with_blobs ≠ [] ∧
      (seg.frames_with_blobs.map Prod.fst).toFinset =
        (List.range seg.video_length).toFinset := by
  unfold Segmenter.is_finished eq_gen_it
  by_cases h : seg.frames_with_blobs = [] <;>
    simp [h, List.isEmpty_iff]

/-- Counterexample to C3 as stated: for an empty table with
`video_length = 0`, the stored index set does equal `{0, …, video_length−1}`
(both are empty) yet `is_finished` reports false. -/
theorem claim_C3_counterexample :
    ¬ (segEmpty0.is_finished = true ↔
        (segEmpty0.frames_with_blobs.map Prod.fst).toFinset =
          (List.range segEmpty0.video_length).toFinset) := by
  decide

/-- C1: with a video attached and `0 < from_frame < video_length`, if frame
`from_frame − 1` has no entry in the stored table and no `prev_blobs` is
passed, `segment_rolling_from` fails with the ambiguous-history error. -/
theorem claim_C1_ambiguous_history {CF F M B S : Type} [Inhabited CF]
    (rgb2gray : CF → F) (subtApply : S → F → S) (createSubtractor : S)
    (getMask : S → F → S × M) (getBlobs : F → M → List B → List B)
    (seg : Segmenter CF B) (video : List CF) (fn steps : Nat)
    (hv : seg.video = some video)
    (h0 : 0 < fn) (hlt : fn < seg.video_length)
    (hmiss : seg.frames_with_blobs.lookup (fn - 1) = none) :
    segment_rolling_from rgb2gray subtApply createSubtractor getMask getBlobs
      seg (fn : ℤ) none steps =
      .error (.ambiguousHistory ((fn : ℤ) - 1)) := by
  have hcond : ¬((fn : ℤ) < 0 ∨ (seg.video_length : ℤ) ≤ (fn : ℤ)) := by
    omega
  simp only [segment_rolling_from, hv, if_neg hcond, Int.toNat_natCast]
  rw [if_neg h0.ne', hmiss]
  simp

/-- Witness for C1 at a concrete input: `resume(2)` on a fresh segmenter over
a 3-frame video, with no `prev_blobs`. -/
theorem claim_C1_witness :
    segment_rolling_from grayId subtRec [] maskF blobsF segFresh3 (2 : ℤ)
      none 10 = .error (.ambiguousHistory 1) :=
  claim_C1_ambiguous_history grayId subtRec [] maskF blobsF segFresh3
    [10, 20, 30] 2 10 rfl (by decide) (by decide) rfl

/-- C4: in both masking policies, if at the guard point the number of true
(nonzero) pixels of the candidate mask exceeds `discard_percentage` times the
pixel count, the returned movement mask is entirely false. -/
theorem claim_C4_discard_guard :
    (∀ (morphClose morphOpen dilate : List Bool → ℚ → List Bool)
       (frame : List ℚ) (last_frames : List (List ℚ))
       (params : SegmenterParameters),
       (countTrue (candidateMask frame last_frames params) : ℚ) >
         ((candidateMask frame last_frames params).length : ℚ) *
           params.discard_percentage →
       ∀ b ∈ get_mask morphClose morphOpen dilate frame last_frames params,
         b = false) ∧
    (∀ (S C : Type) (subtApply : S → List ℚ → S × List Nat)
       (cvThreshold : List ℚ → ℚ → ℚ → List Nat)
       (cvSubtract : List Nat → List Nat → List Nat)
       (morphClose morphOpen : List Nat → ℚ → List Nat)
       (findContours : List Nat → List C) (contourArea : C → ℚ)
       (approxPolyDP : C → ℚ → Bool → C)
       (fillPoly : Nat → List C → ℚ → List Nat)
       (subt : S) (frame : List ℚ) (params : SegmenterParameters),
       (countNonzero (mog2Candidate subtApply cvThreshold cvSubtract
           morphClose morphOpen subt frame params) : ℚ) >
         ((mog2Candidate subtApply cvThreshold cvSubtract morphClose
             morphOpen subt frame params).length : ℚ) *
           params.discard_percentage →
       ∀ b ∈ get_mask_mog2 subtApply cvThreshold cvSubtract morphClose
           morphOpen findContours contourArea approxPolyDP fillPoly subt
           frame params,
         b = false) := by
  constructor
  · intro morphClose morphOpen dilate frame last_frames params h b hb
    unfold get_mask at hb
    rw [if_pos h] at hb
    exact List.eq_of_mem_replicate hb
  · intro S C subtApply cvThreshold cvSubtract morphClose morphOpen
      findContours contourArea approxPolyDP fillPoly subt frame params h b hb
    unfold get_mask_mog2 at hb
    rw [if_pos h] at hb
    exact List.eq_of_mem_replicate hb

/-- Witness for C4 at concrete inputs: a frame pair differing by more than the
threshold on 3 of 4 pixels (discard 1/2) yields an all-false median-policy
mask, and a MOG2 candidate with 3 nonzero pixels out of 3 yields an all-false
MOG2 mask. -/
theorem claim_C4_witness :
    ((countTrue (candidateMask [10, 10, 10, 10] [[0, 0, 0, 10]]
        witnessParams) : ℚ) >
      ((candidateMask [10, 10, 10, 10] [[0, 0, 0, 10]]
          witnessParams).length : ℚ) * witnessParams.discard_percentage ∧
     ∀ b ∈ get_mask (fun m _ => m) (fun m _ => m) (fun m _ => m)
         [10, 10, 10, 10] [[0, 0, 0, 10]] witnessParams,
       b = false) ∧
    ((countNonzero (mog2Candidate (fun (s : Unit) _ => (s, [1, 1, 1]))
        (fun _ _ _ => [0, 0, 0]) (fun a _ => a) (fun m _ => m) (fun m _ => m)
        () [7, 7, 7] witnessParams) : ℚ) >
      ((mog2Candidate (fun (s : Unit) _ => (s, [1, 1, 1]))
          (fun _ _ _ => [0, 0, 0]) (fun a _ => a) (fun m _ => m)
          (fun m _ => m) () [7, 7, 7] witnessParams).length : ℚ) *
        witnessParams.discard_percentage ∧
     ∀ b ∈ get_mask_mog2 (fun (s : Unit) _ => (s, [1, 1, 1]))
         (fun _ _ _ => [0, 0, 0]) (fun a _ => a) (fun m _ => m)
         (fun m _ => m) (fun _ => ([] : List Unit)) (fun _ => 0)
         (fun c _ _ => c) (fun n _ _ => List.replicate n 0) () [7, 7, 7]
         witnessParams,
       b = false) := by
  have hm : candidateMask [10, 10, 10, 10] [[0, 0, 0, 10]] witnessParams =
      [true, true, true, false] := by
    norm_num [candidateMask, medianImage, medianRat, sortRat, insertSorted,
      witnessParams, List.range_succ, List.getD]
  have h1 : (countTrue (candidateMask [10, 10, 10, 10] [[0, 0, 0, 10]]
      witnessParams) : ℚ) >
      ((candidateMask [10, 10, 10, 10] [[0, 0, 0, 10]]
          witnessParams).length : ℚ) * witnessParams.discard_percentage := by
    rw [hm]
    norm_num [countTrue, witnessParams, mkRat, Rat.normalize]
  have h2 : (countNonzero (mog2Candidate (fun (s : Unit) _ => (s, [1, 1, 1]))
      (fun _ _ _ => [0, 0, 0]) (fun a _ => a) (fun m _ => m) (fun m _ => m)
      () [7, 7, 7] witnessParams) : ℚ) >
      ((mog2Candidate (fun (s : Unit) _ => (s, [1, 1, 1]))
          (fun _ _ _ => [0, 0, 0]) (fun a _ => a) (fun m _ => m)
          (fun m _ => m) () [7, 7, 7] witnessParams).length : ℚ) *
        witnessParams.discard_percentage := by
    norm_num [mog2Candidate, countNonzero, witnessParams, mkRat,
      Rat.normalize]
  exact ⟨⟨h1, claim_C4_discard_guard.1 _ _ _ _ _ _ h1⟩,
         ⟨h2, claim_C4_discard_guard.2 Unit Unit _ _ _ _ _ _ _ _ _ _ _ _ h2⟩⟩

/-- The pixel count of the boolean region mask `labels == l` is the number of
pixels labeled `l`. -/
theorem countTrue_map_decideEq (labels : List Nat) (l : Nat) :
    countTrue (labels.map (fun v => decide (v = l))) = labels.count l := by
  induction labels with
  | nil => rfl
  | cons a t ih =>
    simp only [List.map_cons, countTrue, List.count_cons] at ih ⊢
    by_cases h : a = l <;> simp [h, ih]

/-- Every blob produced by the shared regionprops loop comes from a region
mask whose pixel area is at least `minArea`. -/
theorem blobsFromLabels_mem {Blob : Type} {mkBlob : Nat → List Bool → ℚ → Blob}
    {size : Nat} {tol minArea : ℚ} {labels : List Nat} {b : Blob}
    (hb : b ∈ blobsFromLabels mkBlob size tol minArea labels) :
    ∃ m : List Bool, b = mkBlob size m tol ∧ minArea ≤ (countTrue m : ℚ) := by
  unfold blobsFromLabels at hb
  rcases List.mem_filterMap.mp hb with ⟨l, _hl, he⟩
  by_cases hlt : ((labels.count l : ℚ)) < minArea
  · rw [if_pos hlt] at he
    cases he
  · rw [if_neg hlt] at he
    refine ⟨labels.map (fun v => decide (v = l)), (Option.some.inj he).symm, ?_⟩
    rw [countTrue_map_decideEq]
    exact le_of_not_lt hlt

/-- C5: in both extractor variants, every returned blob is constructed from a
region whose pixel area is at least
`minimum_ant_area(minimum_ant_radius) = π·r²`; smaller regions never produce
a blob. -/
theorem claim_C5_area_filter :
    (∀ (Blob : Type) (mkBlob : Nat → List Bool → ℚ → Blob)
       (cx cy rad : Blob → ℚ) (iau : List ℚ → List ℚ)
       (gb : List ℚ → ℤ → ℚ → List ℚ) (f2d : List ℚ → List ℚ → List ℚ)
       (iso : List ℚ → Option ℚ) (ws : List ℚ → List Nat → List Bool → List Nat)
       (cc : List Bool → List Nat) (dm : ℚ × ℚ → ℤ → Nat → List Bool)
       (frame : List ℚ) (mm : List Bool) (params : SegmenterParameters)
       (prev : List Blob) (b : Blob),
       b ∈ getBlobsLogw mkBlob cx cy rad iau gb f2d iso ws cc dm frame mm
           params prev →
       ∃ m : List Bool, b = mkBlob frame.length m params.approx_tolerance ∧
         minimum_ant_area params.minimum_ant_radius ≤ (countTrue m : ℚ)) ∧
    (∀ (Blob : Type) (mkBlob : Nat → List Bool → ℚ → Blob)
       (iso : List ℚ → Option ℚ) (ws : List ℚ → List Nat → List Bool → List Nat)
       (bd : List ℚ → ℚ → ℚ → Nat → List (Nat × Nat))
       (sg : List ℚ → ℚ → List ℚ) (sl : List ℚ → List Bool → List ℚ)
       (width : Nat) (frame : List ℚ) (mm : List Bool)
       (params : SegmenterParameters) (bs : List Blob) (b : Blob),
       getBlobsDoh mkBlob iso ws bd sg sl width frame mm params = some bs →
       b ∈ bs →
       ∃ m : List Bool, b = mkBlob frame.length m params.approx_tolerance ∧
         minimum_ant_area params.minimum_ant_radius ≤ (countTrue m : ℚ)) := by
  constructor
  · intro Blob mkBlob cx cy rad iau gb f2d iso ws cc dm frame mm params prev
      b hb
    unfold getBlobsLogw at hb
    by_cases hm : (!mm.any fun b => b) = true
    · rw [if_pos hm] at hb
      simp at hb
    · rw [if_neg hm] at hb
      by_cases hlog : (!(logwLogImage iau gb f2d frame mm params).any
          fun v => decide (v ≠ 0)) = true
      · rw [if_pos hlog] at hb
        simp at hb
      · rw [if_neg hlog] at hb
        cases hiso : iso (logwLogImage iau gb f2d frame mm params) with
        | none =>
          simp only [hiso] at hb
          simp at hb
        | some t =>
          simp only [hiso] at hb
          rcases List.mem_append.mp hb with h | h
          · by_cases h1 : prev.length > 1
            · rw [if_pos h1] at h
              by_cases h2 : 0 < (closeIdxOf (prev.map fun b => (cy b, cx b))
                  (prev.map rad)).length
              · rw [if_pos h2] at h
                exact blobsFromLabels_mem (by simpa using h)
              · rw [if_neg h2] at h
                simp at h
            · rw [if_neg h1] at h
              simp at h
          · exact blobsFromLabels_mem h
  · intro Blob mkBlob iso ws bd sg sl width frame mm params bs b hok hb
    unfold getBlobsDoh getBlobsDohSteps at hok
    by_cases hm : (!mm.any fun b => b) = true
    · rw [if_pos hm] at hok
      simp at hok
      subst hok
      simp at hb
    · rw [if_neg hm] at hok
      cases hiso : iso (sl (sg frame params.gaussian_sigma) mm) with
      | none =>
        simp only [hiso] at hok
        simp at hok
      | some t =>
        simp only [hiso] at hok
        simp at hok
        subst hok
        exact blobsFromLabels_mem hb

/-- Witness for C5 at concrete inputs: a 4-pixel region (area 4 ≥ π·1²)
passes the filter in both variants, and the returned blob is built from a
region of at least the minimum area. -/
theorem claim_C5_witness :
    ((4, [true, true, true, true], (1 : ℚ)) ∈
        getBlobsLogw (fun sz m t => ((sz, m, t) : Nat × List Bool × ℚ))
          (fun _ => 0) (fun _ => 0) (fun _ => 0) (fun l => l)
          (fun l _ _ => l) (fun l _ => l) (fun _ => some 1)
          (fun _ _ _ => []) (fun _ => [1, 1, 1, 1]) (fun _ _ _ => [])
          [1, 1, 1, 1] [true, true, true, true] witnessParams [] ∧
      ∃ m : List Bool,
        ((4 : Nat), [true, true, true, true], (1 : ℚ)) =
            (4, m, witnessParams.approx_tolerance) ∧
          minimum_ant_area witnessParams.minimum_ant_radius ≤
            (countTrue m : ℚ)) ∧
    (getBlobsDoh (fun sz m t => ((sz, m, t) : Nat × List Bool × ℚ))
        (fun _ => some 1) (fun _ _ _ => [1, 1, 1, 1]) (fun _ _ _ _ => [(0, 0)])
        (fun l _ => l) (fun l _ => l) 4 [1, 1, 1, 1]
        [true, true, true, true] witnessParams =
        some [(4, [true, true, true, true], (1 : ℚ))] ∧
      ∃ m : List Bool,
        ((4 : Nat), [true, true, true, true], (1 : ℚ)) =
            (4, m, witnessParams.approx_tolerance) ∧
          minimum_ant_area witnessParams.minimum_ant_radius ≤
            (countTrue m : ℚ)) := by
  have harea : ¬((4 : ℚ) < minimum_ant_area 1) := by
    norm_num [minimum_ant_area, npPi]
  have hmem : getBlobsLogw (fun sz m t => ((sz, m, t) : Nat × List Bool × ℚ))
      (fun _ => 0) (fun _ => 0) (fun _ => 0) (fun l => l)
      (fun l _ _ => l) (fun l _ => l) (fun _ => some 1)
      (fun _ _ _ => []) (fun _ => [1, 1, 1, 1]) (fun _ _ _ => [])
      [1, 1, 1, 1] [true, true, true, true] witnessParams [] =
      [(4, [true, true, true, true], (1 : ℚ))] := by
    simp [getBlobsLogw, logwLogImage, blobsFromLabels, regionLabelsOf,
      witnessParams, harea, countTrue, List.range_succ, List.count_cons]
    norm_num [harea, List.filterMap_cons]
  have hdoh : getBlobsDoh (fun sz m t => ((sz, m, t) : Nat × List Bool × ℚ))
      (fun _ => some 1) (fun _ _ _ => [1, 1, 1, 1]) (fun _ _ _ _ => [(0, 0)])
      (fun l _ => l) (fun l _ => l) 4 [1, 1, 1, 1]
      [true, true, true, true] witnessParams =
      some [(4, [true, true, true, true], (1 : ℚ))] := by
    simp [getBlobsDoh, getBlobsDohSteps, blobsFromLabels, regionLabelsOf,
      witnessParams, harea, countTrue, List.range_succ, List.count_cons]
    norm_num [harea, List.filterMap_cons]
  refine ⟨⟨?_, ?_⟩, ⟨hdoh, ?_⟩⟩
  · rw [hmem]
    simp
  · exact claim_C5_area_filter.1 _ _ _ _ _ _ _ _ _ _ _ _ _ _ _ _
      (4, [true, true, true, true], (1 : ℚ)) (by rw [hmem]; simp)
  · exact claim_C5_area_filter.2 _ _ _ _ _ _ _ _ _ _ _ _
      (4, [true, true, true, true], (1 : ℚ)) hdoh (by simp)

/-- C6 (amended): when iso-data thresholding fails, the LoG-watershed variant
recovers locally and returns zero blobs (segmenter.py lines 92-96), but the
DoH variant does not catch the failure: the call errors out (`none`) instead
of returning zero blobs (segmenter.py line 174 has no try/except). -/
theorem claim_C6_threshold_failure :
    (∀ (Blob : Type) (mkBlob : Nat → List Bool → ℚ → Blob)
       (cx cy rad : Blob → ℚ) (iau : List ℚ → List ℚ)
       (gb : List ℚ → ℤ → ℚ → List ℚ) (f2d : List ℚ → List ℚ → List ℚ)
       (iso : List ℚ → Option ℚ) (ws : List ℚ → List Nat → List Bool → List Nat)
       (cc : List Bool → List Nat) (dm : ℚ × ℚ → ℤ → Nat → List Bool)
       (frame : List ℚ) (mm : List Bool) (params : SegmenterParameters)
       (prev : List Blob),
       iso (logwLogImage iau gb f2d frame mm params) = none →
       getBlobsLogw mkBlob cx cy rad iau gb f2d iso ws cc dm frame mm params
         prev = []) ∧
    (∀ (Blob : Type) (mkBlob : Nat → List Bool → ℚ → Blob)
       (iso : List ℚ → Option ℚ) (ws : List ℚ → List Nat → List Bool → List Nat)
       (bd : List ℚ → ℚ → ℚ → Nat → List (Nat × Nat))
       (sg : List ℚ → ℚ → List ℚ) (sl : List ℚ → List Bool → List ℚ)
       (width : Nat) (frame : List ℚ) (mm : List Bool)
       (params : SegmenterParameters),
       mm.any (fun b => b) = true →
       iso (sl (sg frame params.gaussian_sigma) mm) = none →
       getBlobsDoh mkBlob iso ws bd sg sl width frame mm
         params = none) := by
  constructor
  · intro Blob mkBlob cx cy rad iau gb f2d iso ws cc dm frame mm params prev
      hiso
    unfold getBlobsLogw
    split
    · rfl
    · simp only [hiso]
      split
      · rfl
      · rfl
  · intro Blob mkBlob iso ws bd sg sl width frame mm params hmm hiso
    unfold getBlobsDoh getBlobsDohSteps
    rw [hmm]
    simp only [Bool.not_true, Bool.false_eq_true, if_false, hiso]
    rfl

/-- Counterexample to C6 as stated: a concrete DoH input whose movement mask
is nonempty and whose thresholding fails produces an error (`none`), not zero
blobs (`some []`). -/
theorem claim_C6_counterexample :
    getBlobsDoh (fun (_ : Nat) (_ : List Bool) (_ : ℚ) => ())
        (fun _ => none) (fun _ _ _ => []) (fun _ _ _ _ => [])
        (fun l _ => l) (fun l _ => l) 1 [1] [true] witnessParams = none ∧
      [true].any (fun b => b) = true ∧
      (none : Option (List Unit)) ≠ some [] := by
  refine ⟨?_, rfl, by simp⟩
  rfl

/-- Witness for C6 at concrete inputs: a failing thresholding makes the LoG
variant return zero blobs, and makes the DoH variant error out. -/
theorem claim_C6_witness :
    getBlobsLogw (fun (_ : Nat) (_ : List Bool) (_ : ℚ) => ()) (fun _ => 0)
        (fun _ => 0) (fun _ => 0) (fun l => l) (fun l _ _ => l)
        (fun l _ => l) (fun _ => none) (fun _ _ _ => []) (fun _ => [])
        (fun _ _ _ => []) [1] [true] witnessParams [] = [] ∧
      getBlobsDoh (fun (_ : Nat) (_ : List Bool) (_ : ℚ) => ())
        (fun _ => none) (fun _ _ _ => []) (fun _ _ _ _ => [])
        (fun l _ => l) (fun l _ => l) 1 [1] [true] witnessParams = none :=
  ⟨claim_C6_threshold_failure.1 Unit _ _ _ _ _ _ _ _ _ _ _ _ _ _ _ rfl,
   claim_C6_threshold_failure.2 Unit _ _ _ _ _ _ _ _ _ _ rfl rfl⟩

section SegmenterProofs

variable {CF F M B S : Type} [Inhabited CF]
variable {rgb2gray : CF → F} {subtApply : S → F → S} {createSubtractor : S}
variable {getMask : S → F → S × M} {getBlobs : F → M → List B → List B}

/-- Appending an entry does not change a key that was not found, provided the
appended key differs. -/
theorem lookup_append_none {β : Type} {tbl : List (Nat × β)} {j k : Nat}
    (v : β) (h : tbl.lookup j = none) (hjk : j ≠ k) :
    (tbl ++ [(k, v)]).lookup j = none := by
  induction tbl with
  | nil => simp [List.lookup_cons, beq_false_of_ne hjk]
  | cons p t ih =>
    obtain ⟨a, w⟩ := p
    by_cases hj : j = a
    · subst hj
      simp [List.lookup_cons] at h
    · simp only [List.cons_append, List.lookup_cons, beq_false_of_ne hj] at h ⊢
      exact ih h

/-- A key found in the left part of an append is found with the same value in
the whole. -/
theorem lookup_append_left {β : Type} {tbl : List (Nat × β)}
    (l2 : List (Nat × β)) {j : Nat} {v : β} (h : tbl.lookup j = some v) :
    (tbl ++ l2).lookup j = some v := by
  induction tbl with
  | nil => simp [List.lookup] at h
  | cons p t ih =>
    obtain ⟨a, w⟩ := p
    by_cases hj : j = a
    · subst hj
      simp only [List.cons_append, List.lookup_cons, beq_self_eq_true] at h ⊢
      exact h
    · simp only [List.cons_append, List.lookup_cons, beq_false_of_ne hj]
        at h ⊢
      exact ih h

/-- Appending a fresh key makes it found. -/
theorem lookup_append_self {β : Type} {tbl : List (Nat × β)} {k : Nat}
    (v : β) (h : tbl.lookup k = none) :
    (tbl ++ [(k, v)]).lookup k = some v := by
  induction tbl with
  | nil => simp [List.lookup_cons]
  | cons p t ih =>
    obtain ⟨a, w⟩ := p
    by_cases hj : k = a
    · subst hj
      simp [List.lookup_cons] at h
    · simp only [List.cons_append, List.lookup_cons, beq_false_of_ne hj]
        at h ⊢
      exact ih h

/-- Unfolding equation of `segLoop` on an already-stored frame. -/
theorem segLoop_cons_stored {steps : Nat} {f : CF} {rest : List CF} {k : Nat}
    {tbl : List (Nat × List B)} {st : S} {prev bs : List B}
    (h : tbl.lookup k = some bs) :
    segLoop rgb2gray getMask getBlobs (steps + 1) (f :: rest) k tbl st prev =
      ((k, bs) ::
        (segLoop rgb2gray getMask getBlobs steps rest (k + 1) tbl st prev).1,
       (segLoop rgb2gray getMask getBlobs steps rest (k + 1) tbl st prev).2)
    := by
  simp [segLoop, h]

/-- Unfolding equation of `segLoop` on a frame to compute. -/
theorem segLoop_cons_new {steps : Nat} {f : CF} {rest : List CF} {k : Nat}
    {tbl : List (Nat × List B)} {st : S} {prev : List B}
    (h : tbl.lookup k = none) :
    segLoop rgb2gray getMask getBlobs (steps + 1) (f :: rest) k tbl st prev =
      ((k, getBlobs (rgb2gray f) (getMask st (rgb2gray f)).2 prev) ::
        (segLoop rgb2gray getMask getBlobs steps rest (k + 1)
          (tbl ++ [(k, getBlobs (rgb2gray f) (getMask st (rgb2gray f)).2 prev)])
          (getMask st (rgb2gray f)).1
          (getBlobs (rgb2gray f) (getMask st (rgb2gray f)).2 prev)).1,
       (segLoop rgb2gray getMask getBlobs steps rest (k + 1)
          (tbl ++ [(k, getBlobs (rgb2gray f) (getMask st (rgb2gray f)).2 prev)])
          (getMask st (rgb2gray f)).1
          (getBlobs (rgb2gray f) (getMask st (rgb2gray f)).2 prev)).2) := by
  simp [segLoop, h]

/-- The loop never yields a frame index below its start index. -/
theorem segLoop_lookup_lt {steps : Nat} {frames : List CF} {k : Nat}
    {tbl : List (Nat × List B)} {st : S} {prev : List B} {j : Nat}
    (hj : j < k) :
    (segLoop rgb2gray getMask getBlobs steps frames k tbl st
      prev).1.lookup j = none := by
  induction steps generalizing frames k tbl st prev with
  | zero => simp [segLoop]
  | succ steps ih =>
    cases frames with
    | nil => simp [segLoop]
    | cons f rest =>
      have hjk : j ≠ k := Nat.ne_of_lt hj
      cases hk : tbl.lookup k with
      | some bs =>
        rw [segLoop_cons_stored hk]
        simp only [List.lookup_cons, beq_false_of_ne hjk]
        exact ih (Nat.lt_succ_of_lt hj)
      | none =>
        rw [segLoop_cons_new hk]
        simp only [List.lookup_cons, beq_false_of_ne hjk]
        exact ih (Nat.lt_succ_of_lt hj)

/-- A run whose first frame is not stored yields, at its start index, the
result of extracting with the incoming `prev`. -/
theorem segLoop_first_new {steps : Nat} {f : CF} {rest : List CF} {k : Nat}
    {tbl : List (Nat × List B)} {st : S} {prev : List B}
    (h : tbl.lookup k = none) :
    (segLoop rgb2gray getMask getBlobs (steps + 1) (f :: rest) k tbl st
        prev).1.lookup k =
      some (getBlobs (rgb2gray f) (getMask st (rgb2gray f)).2 prev) := by
  rw [segLoop_cons_new h]
  simp [List.lookup_cons]

/-- Consecutive-frames lemma: whenever two adjacent frame indices `j`, `j+1`
are both computed by the run (neither was stored beforehand, both are
yielded), the blobs yielded at `j+1` are obtained by extracting frame `j+1`
with the blobs yielded at `j` as the previous-blob argument. -/
theorem segLoop_consecutive {steps : Nat} {frames : List CF} {k : Nat}
    {tbl : List (Nat × List B)} {st : S} {prev : List B} {j : Nat}
    {a b : List B}
    (hj : tbl.lookup j = none) (hj1 : tbl.lookup (j + 1) = none)
    (ha : (segLoop rgb2gray getMask getBlobs steps frames k tbl st
      prev).1.lookup j = some a)
    (hb : (segLoop rgb2gray getMask getBlobs steps frames k tbl st
      prev).1.lookup (j + 1) = some b) :
    ∃ m : M, b = getBlobs (rgb2gray (frames.getD (j + 1 - k) default)) m a
    := by
  induction steps generalizing frames k tbl st prev with
  | zero => simp [segLoop] at ha
  | succ steps ih =>
    cases frames with
    | nil => simp [segLoop] at ha
    | cons f rest =>
      cases hk : tbl.lookup k with
      | some bs =>
        have hjk : j ≠ k := by
          intro e
          rw [e, hk] at hj
          cases hj
        have hj1k : j + 1 ≠ k := by
          intro e
          rw [e, hk] at hj1
          cases hj1
        rw [segLoop_cons_stored hk] at ha hb
        simp only [List.lookup_cons, beq_false_of_ne hjk,
          beq_false_of_ne hj1k] at ha hb
        have hjge : k + 1 ≤ j := by
          by_contra hcon
          rw [segLoop_lookup_lt (by omega)] at ha
          cases ha
        have hidx : j + 1 - k = (j + 1 - (k + 1)) + 1 := by omega
        rcases ih hj hj1 ha hb with ⟨m, hm⟩
        refine ⟨m, ?_⟩
        rw [hidx, List.getD_cons_succ]
        exact hm
      | none =>
        by_cases hjk : j = k
        · subst hjk
          rw [segLoop_cons_new hk] at ha hb
          have hne : j + 1 ≠ j := by omega
          simp only [List.lookup_cons, beq_self_eq_true,
            beq_false_of_ne hne] at ha hb
          obtain rfl : getBlobs (rgb2gray f) (getMask st (rgb2gray f)).2 prev
              = a := Option.some.inj ha
          have htbl2 : (tbl ++ [(j, getBlobs (rgb2gray f)
              (getMask st (rgb2gray f)).2 prev)]).lookup (j + 1) = none :=
            lookup_append_none _ hj1 hne
          cases steps with
          | zero => simp [segLoop] at hb
          | succ steps =>
            cases rest with
            | nil => simp [segLoop] at hb
            | cons f2 rest2 =>
              rw [segLoop_first_new htbl2] at hb
              refine ⟨(getMask (getMask st (rgb2gray f)).1 (rgb2gray f2)).2,
                ?_⟩
              have : j + 1 - j = 1 := by omega
              rw [this, List.getD_cons_succ, List.getD_cons_zero]
              exact (Option.some.inj hb).symm
        · have hj1k : j + 1 ≠ k := by
            intro e
            rw [segLoop_cons_new hk] at ha
            simp only [List.lookup_cons, beq_false_of_ne hjk] at ha
            rw [segLoop_lookup_lt (by omega)] at ha
            cases ha
          rw [segLoop_cons_new hk] at ha hb
          simp only [List.lookup_cons, beq_false_of_ne hjk,
            beq_false_of_ne hj1k] at ha hb
          have hjge : k + 1 ≤ j := by
            by_contra hcon
            rw [segLoop_lookup_lt (by omega)] at ha
            cases ha
          have htj : (tbl ++ [(k, getBlobs (rgb2gray f)
              (getMask st (rgb2gray f)).2 prev)]).lookup j = none :=
            lookup_append_none _ hj hjk
          have htj1 : (tbl ++ [(k, getBlobs (rgb2gray f)
              (getMask st (rgb2gray f)).2 prev)]).lookup (j + 1) = none :=
            lookup_append_none _ hj1 hj1k
          rcases ih htj htj1 ha hb with ⟨m, hm⟩
          refine ⟨m, ?_⟩
          have hidx : j + 1 - k = (j + 1 - (k + 1)) + 1 := by omega
          rw [hidx, List.getD_cons_succ]
          exact hm

end SegmenterProofs

/-- `getD` through `drop`. -/
theorem getD_drop_add {α : Type} (l : List α) (m n : Nat) (d : α) :
    (l.drop m).getD n d = l.getD (m + n) d := by
  simp [List.getD_eq_getElem?_getD, List.getElem?_drop]

/-- C2 (amended): during a run of `segment_rolling_from`, a computed frame `k`
is extracted with the blob list of frame `k−1` *provided frame `k−1` was
itself computed in the same run* (equivalently, was not already stored when
the run began).  When frame `k−1` is replayed from the table, `prev_blobs` is
not refreshed from the stored entry, so the original claim's stored-frame case
fails (see the counterexample). -/
theorem claim_C2_prev_blobs {CF F M B S : Type} [Inhabited CF]
    (rgb2gray : CF → F) (subtApply : S → F → S) (createSubtractor : S)
    (getMask : S → F → S × M) (getBlobs : F → M → List B → List B)
    (seg : Segmenter CF B) (video : List CF) (fn k steps : Nat)
    (prevArg : Option (List B))
    (r : List (Nat × List B) × Segmenter CF B) (a b : List B)
    (hv : seg.video = some video)
    (hok : segment_rolling_from rgb2gray subtApply createSubtractor getMask
      getBlobs seg (fn : ℤ) prevArg steps = .ok r)
    (hfn : fn < k)
    (hk1 : seg.frames_with_blobs.lookup (k - 1) = none)
    (hk : seg.frames_with_blobs.lookup k = none)
    (ha : r.1.lookup (k - 1) = some a)
    (hb : r.1.lookup k = some b) :
    ∃ m : M, b = getBlobs (rgb2gray (video.getD k default)) m a := by
  simp only [segment_rolling_from, hv, Int.toNat_natCast] at hok
  by_cases hval : (fn : ℤ) < 0 ∨ (seg.video_length : ℤ) ≤ (fn : ℤ)
  · rw [if_pos hval] at hok
    cases hok
  · rw [if_neg hval] at hok
    split at hok
    · cases hok
    · rename_i prev hprev
      obtain rfl := (Except.ok.inj hok).symm
      have hkk : k - 1 + 1 = k := by omega
      rw [← hkk] at hb hk
      rcases segLoop_consecutive hk1 hk ha hb with ⟨m, hm⟩
      rw [getD_drop_add] at hm
      have hidx : fn + (k - 1 + 1 - fn) = k := by omega
      rw [hidx] at hm
      exact ⟨m, hm⟩

/-- Decomposing a dropped slice into its head element via `getD`. -/
theorem drop_take_succ_getD {α : Type} (l : List α) (a n : Nat) (d : α)
    (h : a < l.length) :
    (l.drop a).take (n + 1) = l.getD a d :: (l.drop (a + 1)).take n := by
  rw [List.drop_eq_getElem_cons h, List.take_succ_cons,
    List.getD_eq_getElem?_getD, List.getElem?_eq_getElem h]
  rfl

/-- Folding an indexed access over `range' a n` is folding over the slice of
`n` elements starting at `a`. -/
theorem range'_foldl_getD {α β : Type} (g : β → α → β) (l : List α) (d : α)
    (n : Nat) :
    ∀ (a : Nat) (init : β), a + n ≤ l.length →
      List.foldl (fun s j => g s (l.getD j d)) init (List.range' a n) =
        List.foldl g init ((l.drop a).take n) := by
  induction n with
  | zero =>
    intro a init _
    simp
  | succ n ih =>
    intro a init h
    rw [List.range'_succ, List.foldl_cons, ih (a + 1) _ (by omega),
      drop_take_succ_getD l a n d (by omega), List.foldl_cons]

/-- Elements of a `drop`/`take` slice via `getD`. -/
theorem drop_take_getD {α : Type} (l : List α) (a n i : Nat) (d : α)
    (hi : i < n) :
    ((l.drop a).take n).getD i d = l.getD (a + i) d := by
  rw [List.getD_eq_getElem?_getD, List.getElem?_take_of_lt hi,
    List.getElem?_drop, List.getD_eq_getElem?_getD]

/-- C8: a call to `segment_rolling_from` that passes validation enters its
generator loop with a subtractor state obtained by folding the raw subtractor
`apply` (output discarded) over exactly the `min(movement_detection_history,
from_frame)` grayscale frames immediately preceding `from_frame`, in ascending
order, starting from a freshly created subtractor — independently of any
previous call. -/
theorem claim_C8_warmup {CF F M B S : Type} [Inhabited CF]
    (rgb2gray : CF → F) (subtApply : S → F → S) (createSubtractor : S)
    (getMask : S → F → S × M) (getBlobs : F → M → List B → List B)
    (seg : Segmenter CF B) (video : List CF) (fn steps : Nat)
    (prevArg : Option (List B)) (r : List (Nat × List B) × Segmenter CF B)
    (hv : seg.video = some video)
    (hlen : seg.video_length ≤ video.length)
    (hok : segment_rolling_from rgb2gray subtApply createSubtractor getMask
      getBlobs seg (fn : ℤ) prevArg steps = .ok r) :
    ∃ prev : List B,
      r = ((segLoop rgb2gray getMask getBlobs steps (video.drop fn) fn
            seg.frames_with_blobs
            (List.foldl (fun s f => subtApply s (rgb2gray f)) createSubtractor
              (warmupWindow video seg.params.movement_detection_history fn))
            prev).1,
          { seg with frames_with_blobs :=
              (segLoop rgb2gray getMask getBlobs steps (video.drop fn) fn
                seg.frames_with_blobs
                (List.foldl (fun s f => subtApply s (rgb2gray f))
                  createSubtractor
                  (warmupWindow video seg.params.movement_detection_history
                    fn))
                prev).2 }) ∧
      (warmupWindow video seg.params.movement_detection_history fn).length =
        min seg.params.movement_detection_history fn ∧
      ∀ i < min seg.params.movement_detection_history fn,
        (warmupWindow video seg.params.movement_detection_history fn).getD i
            default =
          video.getD
            (fn - min seg.params.movement_detection_history fn + i) default
    := by
  simp only [segment_rolling_from, hv, Int.toNat_natCast] at hok
  by_cases hval : (fn : ℤ) < 0 ∨ (seg.video_length : ℤ) ≤ (fn : ℤ)
  · rw [if_pos hval] at hok
    cases hok
  · rw [if_neg hval] at hok
    have hfn : fn < seg.video_length := by omega
    have hfnl : fn ≤ video.length := by omega
    have hmin : min seg.params.movement_detection_history fn ≤ fn :=
      Nat.min_le_right _ _
    split at hok
    · cases hok
    · rename_i prev hprev
      obtain rfl := (Except.ok.inj hok).symm
      have hw : List.foldl
          (fun s j => subtApply s (rgb2gray (video.getD j default)))
          createSubtractor
          (List.range'
            (fn - min seg.params.movement_detection_history fn)
            (min seg.params.movement_detection_history fn)) =
          List.foldl (fun s f => subtApply s (rgb2gray f)) createSubtractor
            (warmupWindow video seg.params.movement_detection_history fn) :=
        range'_foldl_getD (fun s f => subtApply s (rgb2gray f)) video default
          _ _ _ (by omega)
      refine ⟨prev, ?_, ?_, ?_⟩
      · rw [hw, hv]
      · unfold warmupWindow
        simp only [List.length_take, List.length_drop]
        omega
      · intro i hi
        unfold warmupWindow
        rw [drop_take_getD _ _ _ _ _ hi]

/-- Witness for C8 at a concrete input: resuming at frame 2 of a 3-frame
video with history 2 warms the subtractor on frames 0 and 1 in order. -/
theorem claim_C8_witness :
    ∃ prev : List (List Nat),
      ([(2, [[30]])],
          { segFresh3 with frames_with_blobs := [(2, [[30]])] }) =
        ((segLoop grayId maskF blobsF 10 ([10, 20, 30].drop 2) 2
            segFresh3.frames_with_blobs
            (List.foldl (fun s f => subtRec s (grayId f)) []
              (warmupWindow [10, 20, 30]
                segFresh3.params.movement_detection_history 2))
            prev).1,
          { segFresh3 with frames_with_blobs :=
              (segLoop grayId maskF blobsF 10 ([10, 20, 30].drop 2) 2
                segFresh3.frames_with_blobs
                (List.foldl (fun s f => subtRec s (grayId f)) []
                  (warmupWindow [10, 20, 30]
                    segFresh3.params.movement_detection_history 2))
                prev).2 }) ∧
      (warmupWindow [10, 20, 30]
          segFresh3.params.movement_detection_history 2).length =
        min segFresh3.params.movement_detection_history 2 ∧
      ∀ i < min segFresh3.params.movement_detection_history 2,
        (warmupWindow [10, 20, 30]
            segFresh3.params.movement_detection_history 2).getD i default =
          [10, 20, 30].getD
            (2 - min segFresh3.params.movement_detection_history 2 + i)
            default := by
  have hok : segment_rolling_from grayId subtRec [] maskF blobsF segFresh3
      ((2 : Nat) : ℤ) (some []) 10 =
      .ok ([(2, [[30]])],
        { segFresh3 with frames_with_blobs := [(2, [[30]])] }) := rfl
  exact claim_C8_warmup grayId subtRec [] maskF blobsF segFresh3
    [10, 20, 30] 2 10 (some []) _ rfl (by decide) hok

/-- Counterexample to C2 as stated: on a segmenter whose table already stores
frame 1, running from frame 0 computes frame 2 with the blobs computed for
frame 0 (the last *computed* frame) instead of the stored blobs of frame 1:
the yielded blobs at frame 2 are `[[30, 10]]`, which no mask can produce from
frame 1's stored `[[99]]`. -/
theorem claim_C2_counterexample :
    segment_rolling_from grayId subtRec [] maskF blobsF segC2 0 none 10 =
      .ok ([(0, [[10]]), (1, [[99]]), (2, [[30, 10]])],
        { segC2 with frames_with_blobs :=
            [(1, [[99]]), (0, [[10]]), (2, [[30, 10]])] }) ∧
    segC2.frames_with_blobs.lookup 2 = none ∧
    segC2.frames_with_blobs.lookup 1 = some [[99]] ∧
    (∀ m : Unit, blobsF 30 m [[99]] ≠ [[30, 10]]) := by
  refine ⟨rfl, rfl, rfl, ?_⟩
  intro m
  simp [blobsF]

/-- Witness for C2 at a concrete input: a fresh 3-frame run computes frame 2
from frame 1's computed blobs. -/
theorem claim_C2_witness :
    ∃ m : Unit,
      [[30, 20, 10]] = blobsF (grayId ([10, 20, 30].getD 2 default)) m
        [[20, 10]] := by
  have hv : segFresh3.video = some [10, 20, 30] := rfl
  have hok : segment_rolling_from grayId subtRec [] maskF blobsF segFresh3
      ((0 : Nat) : ℤ) none 10 =
      .ok ([(0, [[10]]), (1, [[20, 10]]), (2, [[30, 20, 10]])],
        { segFresh3 with frames_with_blobs :=
            [(0, [[10]]), (1, [[20, 10]]), (2, [[30, 20, 10]])] }) := rfl
  exact claim_C2_prev_blobs grayId subtRec [] maskF blobsF segFresh3
    [10, 20, 30] 0 2 10 none _ [[20, 10]] [[30, 20, 10]] hv hok
    (by omega) rfl rfl rfl rfl

section SegmenterProofs2

variable {CF F M B S : Type} [Inhabited CF]
variable {rgb2gray : CF → F} {subtApply : S → F → S} {createSubtractor : S}
variable {getMask : S → F → S × M} {getBlobs : F → M → List B → List B}

/-- The loop never removes or overwrites a table entry. -/
theorem segLoop_table_preserve {steps : Nat} {frames : List CF} {k : Nat}
    {tbl : List (Nat × List B)} {st : S} {prev : List B} {j : Nat}
    {v : List B} (h : tbl.lookup j = some v) :
    (segLoop rgb2gray getMask getBlobs steps frames k tbl st prev).2.lookup j
      = some v := by
  induction steps generalizing frames k tbl st prev with
  | zero => simpa [segLoop] using h
  | succ steps ih =>
    cases frames with
    | nil => simpa [segLoop] using h
    | cons f rest =>
      cases hk : tbl.lookup k with
      | some bs =>
        rw [segLoop_cons_stored hk]
        exact ih h
      | none =>
        rw [segLoop_cons_new hk]
        exact ih (lookup_append_left _ h)

/-- The final table of a run holds exactly the initial entries plus the
yielded frames. -/
theorem segLoop_table_dom {steps : Nat} {frames : List CF} {k : Nat}
    {tbl : List (Nat × List B)} {st : S} {prev : List B} {j : Nat} :
    ((segLoop rgb2gray getMask getBlobs steps frames k tbl st
        prev).2.lookup j).isSome ↔
      (tbl.lookup j).isSome ∨
      ((segLoop rgb2gray getMask getBlobs steps frames k tbl st
        prev).1.lookup j).isSome := by
  induction steps generalizing frames k tbl st prev with
  | zero => simp [segLoop]
  | succ steps ih =>
    cases frames with
    | nil => simp [segLoop]
    | cons f rest =>
      cases hk : tbl.lookup k with
      | some bs =>
        rw [segLoop_cons_stored hk]
        by_cases hj : j = k
        · subst hj
          simp [List.lookup_cons, hk, segLoop_table_preserve hk]
        · simp only [List.lookup_cons, beq_false_of_ne hj]
          exact ih
      | none =>
        rw [segLoop_cons_new hk]
        by_cases hj : j = k
        · subst hj
          have h2 := lookup_append_self
            (getBlobs (rgb2gray f) (getMask st (rgb2gray f)).2 prev) hk
          simp [List.lookup_cons, segLoop_table_preserve h2]
        · simp only [List.lookup_cons, beq_false_of_ne hj]
          rw [ih]
          cases htj : tbl.lookup j with
          | some w => rw [lookup_append_left _ htj]
          | none => rw [lookup_append_none _ htj hj]

/-- Table specification of a successful `segment_rolling_from` call:
existing entries survive unchanged, and the final key set is the initial key
set united with the yielded keys. -/
theorem rolling_from_table_spec {seg : Segmenter CF B} {fnZ : ℤ}
    {prevArg : Option (List B)} {steps : Nat}
    {r : List (Nat × List B) × Segmenter CF B}
    (hok : segment_rolling_from rgb2gray subtApply createSubtractor getMask
      getBlobs seg fnZ prevArg steps = .ok r) :
    (∀ j v, seg.frames_with_blobs.lookup j = some v →
      r.2.frames_with_blobs.lookup j = some v) ∧
    (∀ j, (r.2.frames_with_blobs.lookup j).isSome ↔
      (seg.frames_with_blobs.lookup j).isSome ∨ (r.1.lookup j).isSome) := by
  cases hv : seg.video with
  | none =>
    simp only [segment_rolling_from, hv] at hok
    cases hok
  | some video =>
    simp only [segment_rolling_from, hv] at hok
    split at hok
    · cases hok
    · split at hok
      · cases hok
      · rename_i prev hprev
        obtain rfl := (Except.ok.inj hok).symm
        exact ⟨fun j v h => segLoop_table_preserve h,
          fun j => segLoop_table_dom⟩

/-- Same specification for `segment_rolling_continue`. -/
theorem rolling_continue_table_spec {seg : Segmenter CF B} {steps : Nat}
    {r : List (Nat × List B) × Segmenter CF B}
    (hok : segment_rolling_continue rgb2gray subtApply createSubtractor
      getMask getBlobs seg steps = .ok r) :
    (∀ j v, seg.frames_with_blobs.lookup j = some v →
      r.2.frames_with_blobs.lookup j = some v) ∧
    (∀ j, (r.2.frames_with_blobs.lookup j).isSome ↔
      (seg.frames_with_blobs.lookup j).isSome ∨ (r.1.lookup j).isSome) := by
  cases hm : maxKey seg.frames_with_blobs with
  | none =>
    simp only [segment_rolling_continue, hm] at hok
    cases hok
  | some m =>
    simp only [segment_rolling_continue, hm] at hok
    exact rolling_from_table_spec hok

/-- Table specification of one public operation (raising calls leave the
table unchanged and yield nothing). -/
theorem runOp_table_spec {seg : Segmenter CF B} {op : SegOp B} :
    (∀ j v, seg.frames_with_blobs.lookup j = some v →
      (runOp rgb2gray subtApply createSubtractor getMask getBlobs seg
        op).1.frames_with_blobs.lookup j = some v) ∧
    (∀ j, ((runOp rgb2gray subtApply createSubtractor getMask getBlobs seg
        op).1.frames_with_blobs.lookup j).isSome ↔
      (seg.frames_with_blobs.lookup j).isSome ∨
      ((runOp rgb2gray subtApply createSubtractor getMask getBlobs seg
        op).2.lookup j).isSome) := by
  cases op with
  | rollFrom f p s =>
    cases hr : segment_rolling_from rgb2gray subtApply createSubtractor
        getMask getBlobs seg f p s with
    | error e =>
      simp only [runOp, hr]
      exact ⟨fun j v h => h, fun j => by simp [List.lookup]⟩
    | ok r0 =>
      simp only [runOp, hr]
      exact rolling_from_table_spec hr
  | rollCont s =>
    cases hr : segment_rolling_continue rgb2gray subtApply createSubtractor
        getMask getBlobs seg s with
    | error e =>
      simp only [runOp, hr]
      exact ⟨fun j v h => h, fun j => by simp [List.lookup]⟩
    | ok r0 =>
      simp only [runOp, hr]
      exact rolling_continue_table_spec hr

/-- Entries survive any sequence of operations unchanged. -/
theorem runOps_table_preserve {seg : Segmenter CF B} {ops : List (SegOp B)}
    {j : Nat} {v : List B}
    (h : seg.frames_with_blobs.lookup j = some v) :
    (runOps rgb2gray subtApply createSubtractor getMask getBlobs seg
      ops).1.frames_with_blobs.lookup j = some v := by
  induction ops generalizing seg with
  | nil => exact h
  | cons op ops ih => exact ih (runOp_table_spec.1 j v h)

/-- The key set after a sequence of operations is the initial key set united
with every yielded key. -/
theorem runOps_table_dom {seg : Segmenter CF B} {ops : List (SegOp B)}
    {j : Nat} :
    ((runOps rgb2gray subtApply createSubtractor getMask getBlobs seg
        ops).1.frames_with_blobs.lookup j).isSome ↔
      (seg.frames_with_blobs.lookup j).isSome ∨
      ∃ out ∈ (runOps rgb2gray subtApply createSubtractor getMask getBlobs
        seg ops).2, (out.lookup j).isSome := by
  induction ops generalizing seg with
  | nil => simp [runOps]
  | cons op ops ih =>
    have h1 : (runOps rgb2gray subtApply createSubtractor getMask getBlobs
        seg (op :: ops)).1 =
        (runOps rgb2gray subtApply createSubtractor getMask getBlobs
          (runOp rgb2gray subtApply createSubtractor getMask getBlobs seg
            op).1 ops).1 := rfl
    have h2 : (runOps rgb2gray subtApply createSubtractor getMask getBlobs
        seg (op :: ops)).2 =
        (runOp rgb2gray subtApply createSubtractor getMask getBlobs seg
          op).2 ::
        (runOps rgb2gray subtApply createSubtractor getMask getBlobs
          (runOp rgb2gray subtApply createSubtractor getMask getBlobs seg
            op).1 ops).2 := rfl
    rw [h1, h2, ih, runOp_table_spec.2 j, List.exists_mem_cons_iff, or_assoc]

end SegmenterProofs2

/-- C9: starting from an empty table, after any sequence of
`segment_rolling_from`/`segment_rolling_continue` calls with partial or
complete iteration, the key set of the table is exactly the union of the
yielded frame indices; and (for any starting state) an entry once present is
never removed or overwritten with a different list. -/
theorem claim_C9_table_is_union {CF F M B S : Type} [Inhabited CF]
    (rgb2gray : CF → F) (subtApply : S → F → S) (createSubtractor : S)
    (getMask : S → F → S × M) (getBlobs : F → M → List B → List B)
    (seg : Segmenter CF B) (ops : List (SegOp B))
    (h0 : seg.frames_with_blobs = []) :
    (∀ j, ((runOps rgb2gray subtApply createSubtractor getMask getBlobs seg
        ops).1.frames_with_blobs.lookup j).isSome ↔
      ∃ out ∈ (runOps rgb2gray subtApply createSubtractor getMask getBlobs
        seg ops).2, (out.lookup j).isSome) ∧
    (∀ (seg' : Segmenter CF B) (ops' : List (SegOp B)) (j : Nat) (v : List B),
      seg'.frames_with_blobs.lookup j = some v →
      (runOps rgb2gray subtApply createSubtractor getMask getBlobs seg'
        ops').1.frames_with_blobs.lookup j = some v) := by
  constructor
  · intro j
    rw [runOps_table_dom, h0]
    simp [List.lookup]
  · intro seg' ops' j v h
    exact runOps_table_preserve h

/-- Witness for C9 at a concrete input: a fresh segmenter, one partial run
from 0 and one continue call. -/
theorem claim_C9_witness :
    (∀ j, ((runOps grayId subtRec [] maskF blobsF segFresh3
        [SegOp.rollFrom 0 none 2, SegOp.rollCont 5]).1.frames_with_blobs.lookup
          j).isSome ↔
      ∃ out ∈ (runOps grayId subtRec [] maskF blobsF segFresh3
        [SegOp.rollFrom 0 none 2, SegOp.rollCont 5]).2,
        (out.lookup j).isSome) ∧
    (∀ (seg' : Segmenter Nat (List Nat)) (ops' : List (SegOp (List Nat)))
       (j : Nat) (v : List (List Nat)),
      seg'.frames_with_blobs.lookup j = some v →
      (runOps grayId subtRec [] maskF blobsF seg'
        ops').1.frames_with_blobs.lookup j = some v) :=
  claim_C9_table_is_union grayId subtRec [] maskF blobsF segFresh3
    [SegOp.rollFrom 0 none 2, SegOp.rollCont 5] rfl

/-- Parsing the character of a decimal digit gives the digit back. -/
theorem parseDigit_digitChar : ∀ d < 10, parseDigit (digitChar d) = some d
    := by decide

/-- Parsing a digit string character-by-character succeeds and yields the
digits. -/
theorem parseDigits_map_digitChar {ds : List Nat} (h : ∀ d ∈ ds, d < 10) :
    parseDigits (ds.map digitChar) = some ds := by
  induction ds with
  | nil => rfl
  | cons d t ih =>
    have hd : parseDigit (digitChar d) = some d :=
      parseDigit_digitChar d (h d (by simp))
    have ht := ih (fun x hx => h x (by simp [hx]))
    simp [parseDigits, hd, ht]

/-- Folding base-10 accumulation over big-endian digits recovers the
little-endian digit value. -/
theorem foldl_reverse_ofDigits (ds : List Nat) :
    (ds.reverse).foldl (fun a d => 10 * a + d) 0 = Nat.ofDigits 10 ds := by
  induction ds with
  | nil => rfl
  | cons d t ih =>
    rw [List.reverse_cons, List.foldl_append, ih, List.foldl_cons,
      List.foldl_nil, Nat.ofDigits_cons]
    omega

/-- Python `int(str(n)) = n`: the decimal round trip. -/
theorem parseNat_natRepr (n : Nat) : parseNat (natRepr n) = some n := by
  by_cases h : n = 0
  · subst h
    rfl
  · have hdig : ∀ d ∈ (Nat.digits 10 n).reverse, d < 10 := by
      intro d hd
      exact Nat.digits_lt_base (by norm_num) (List.mem_reverse.mp hd)
    have hne : Nat.digits 10 n ≠ [] := Nat.digits_ne_nil_iff_ne_zero.mpr h
    unfold natRepr parseNat
    rw [if_neg h]
    have hdata : (String.mk ((Nat.digits 10 n).reverse.map digitChar)).data =
        (Nat.digits 10 n).reverse.map digitChar := rfl
    rw [hdata, parseDigits_map_digitChar hdig]
    have hempty : ((Nat.digits 10 n).reverse.map digitChar).isEmpty = false
        := by
      simp [List.isEmpty_iff, hne]
    rw [hempty]
    simp only [Bool.false_eq_true, if_false, Option.map_some']
    rw [foldl_reverse_ofDigits, Nat.ofDigits_digits]

/-- Decoding the encoded parameter pairs recovers the parameters. -/
theorem decodeParams_encodeParams (p : SegmenterParameters) :
    decodeParams (encodeParams p) = p := by
  cases p
  simp [decodeParams, encodeParams, List.lookup]

/-- Decoding the encoded frame table recovers every frame index and every
blob, with the stored shape reattached. -/
theorem decode_encode_table (tbl : List (Nat × List BlobData))
    (shape : Nat × Nat) :
    decodeFrames shape
      (tbl.map (fun p => (natRepr p.1, p.2.map BlobData.encode))) =
      some (tbl.map (fun p => (p.1, p.2.map
        (fun b => { b with imshape := shape })))) := by
  induction tbl with
  | nil => rfl
  | cons q t ih =>
    simp [decodeFrames, parseNat_natRepr, ih, BlobData.decode,
      BlobData.encode, List.map_map, Function.comp]

/-- A blob list and its shape-reattached image agree pointwise on centers and
radii. -/
theorem forall2_blob_geom_one (bs : List BlobData) (shape : Nat × Nat) :
    List.Forall₂ (fun b b' => b'.center_x = b.center_x ∧
      b'.center_y = b.center_y ∧ b'.radius = b.radius) bs
      (bs.map (fun b => { b with imshape := shape })) := by
  induction bs with
  | nil => exact List.Forall₂.nil
  | cons b t ih => exact List.Forall₂.cons ⟨rfl, rfl, rfl⟩ ih

/-- A table and its shape-reattached image agree on blob counts, centers and
radii, framewise. -/
theorem forall2_blob_geom (tbl : List (Nat × List BlobData))
    (shape : Nat × Nat) :
    List.Forall₂ (fun (p q : Nat × List BlobData) =>
      p.2.length = q.2.length ∧
      List.Forall₂ (fun b b' => b'.center_x = b.center_x ∧
        b'.center_y = b.center_y ∧ b'.radius = b.radius) p.2 q.2)
      tbl (tbl.map (fun p => (p.1, p.2.map
        (fun b => { b with imshape := shape })))) := by
  induction tbl with
  | nil => exact List.Forall₂.nil
  | cons q t ih =>
    refine List.Forall₂.cons ⟨by simp, ?_⟩ ih
    exact forall2_blob_geom_one q.2 shape

/-- C7: for a `Segmenter` with a non-trivial table (at least two frames, each
with at least one blob), `decode(encode(x))` succeeds and reproduces the same
`video_length`, `video_shape` and parameter name-to-value pairs, parses the
string-encoded frame keys back to the same integers, and maps each frame to
the same number of blobs, each rebuilt against the stored shape with equal
center and radius. -/
theorem claim_C7_roundtrip (CF : Type) (seg : Segmenter CF BlobData)
    (h2 : 2 ≤ seg.frames_with_blobs.length)
    (hblobs : ∀ p ∈ seg.frames_with_blobs, p.2 ≠ []) :
    ∃ seg' : Segmenter CF BlobData,
      Segmenter.decode CF seg.encode = some seg' ∧
      seg'.video_length = seg.video_length ∧
      seg'.video_shape = seg.video_shape ∧
      encodeParams seg'.params = encodeParams seg.params ∧
      seg'.frames_with_blobs.map Prod.fst =
        seg.frames_with_blobs.map Prod.fst ∧
      List.Forall₂ (fun (p q : Nat × List BlobData) =>
        p.2.length = q.2.length ∧
        List.Forall₂ (fun b b' => b'.center_x = b.center_x ∧
          b'.center_y = b.center_y ∧ b'.radius = b.radius) p.2 q.2)
        seg.frames_with_blobs seg'.frames_with_blobs := by
  unfold Segmenter.encode Segmenter.decode
  rw [decode_encode_table]
  simp only [Option.map_some]
  refine ⟨_, rfl, rfl, rfl, ?_, ?_, ?_⟩
  · rw [decodeParams_encodeParams]
  · simp [List.map_map, Function.comp]
  · exact forall2_blob_geom seg.frames_with_blobs seg.video_shape

/-- Witness for C7 at a concrete input: a two-frame table with one and two
blobs. -/
theorem claim_C7_witness :
    2 ≤ segSer.frames_with_blobs.length ∧
    ∃ seg' : Segmenter Nat BlobData,
      Segmenter.decode Nat segSer.encode = some seg' ∧
      seg'.video_length = segSer.video_length ∧
      seg'.video_shape = segSer.video_shape ∧
      encodeParams seg'.params = encodeParams segSer.params ∧
      seg'.frames_with_blobs.map Prod.fst =
        segSer.frames_with_blobs.map Prod.fst ∧
      List.Forall₂ (fun (p q : Nat × List BlobData) =>
        p.2.length = q.2.length ∧
        List.Forall₂ (fun b b' => b'.center_x = b.center_x ∧
          b'.center_y = b.center_y ∧ b'.radius = b.radius) p.2 q.2)
        segSer.frames_with_blobs seg'.frames_with_blobs :=
  ⟨by decide,
   claim_C7_roundtrip Nat segSer (by decide) (by decide)⟩

end AntTracker
